import Mathlib

/-!
Shallow embedding of the task-directory lifecycle subsystem of the
tracklogging repository (src/trackinglog/task_manager/task_manager.py).

Filesystem state is modelled explicitly: a task root is the list of its
immediate subdirectory names together with the optional content of the
JSON policy record __task_config.json; deletions and creations performed
by a run are tracked in result records, and the post-run directory listing
is computed from them.  datetime values are encoded as integers counting
seconds on the proleptic Gregorian calendar, so that datetime comparison
is integer comparison and timedelta(days=k) is k * 86400 seconds; the
epoch offset is irrelevant because timestamps are only compared and
shifted by whole numbers of days.
-/

namespace Tracklog

/-- Value of one decimal digit character, none for a non-digit. -/
def digitVal (c : Char) : Option Nat :=
  if c.isDigit then some (c.toNat - 48) else none

/-- Two-digit decimal field of a folder-name timestamp. -/
def twoDigits (a b : Char) : Option Nat :=
  match digitVal a, digitVal b with
  | some x, some y => some (x * 10 + y)
  | _, _ => none

/-- Gregorian leap-year test. -/
def isLeap (y : Nat) : Bool :=
  (y % 4 == 0 && y % 100 != 0) || y % 400 == 0

/-- Number of days in a month, as validated by datetime's constructor. -/
def daysInMonth (y m : Nat) : Nat :=
  if m = 2 then (if isLeap y then 29 else 28)
  else if m = 4 ∨ m = 6 ∨ m = 9 ∨ m = 11 then 30
  else 31

/-- Day number of a civil (Gregorian) date, by the standard
era/year-of-era computation; valid for the years a two-digit %y can denote
(1969-2068), where all quantities stay nonnegative. -/
def daysFromCivil (y m d : Nat) : Nat :=
  let yy := if m ≤ 2 then y - 1 else y
  let era := yy / 400
  let yoe := yy % 400
  let mp := (m + 9) % 12
  let doy := (153 * mp + 2) / 5 + d - 1
  let doe := yoe * 365 + yoe / 4 - yoe / 100 + doy
  era * 146097 + doe

/-- datetime.strptime(folder_name, "%y%m%d_%H%M%S") as used by
TaskMgtAgent._extract_date_from_folder: a two-digit year (Python's %y
pivot maps 00-68 to 2000-2068 and 69-99 to 1969-1999), month, day, an
underscore, then hour, minute, second; every field is range-validated and
any mismatch (wrong length, wrong separator, out-of-range field) yields
none, matching the ValueError branch that makes the method return None. -/
def strptimeYmdHms (name : String) : Option Int :=
  match name.toList with
  | [y1, y2, mo1, mo2, d1, d2, u, h1, h2, mi1, mi2, s1, s2] =>
    if u = '_' then
      match twoDigits y1 y2, twoDigits mo1 mo2, twoDigits d1 d2,
            twoDigits h1 h2, twoDigits mi1 mi2, twoDigits s1 s2 with
      | some yy, some mo, some dd, some hh, some mi, some ss =>
        let year := if yy ≤ 68 then 2000 + yy else 1900 + yy
        if 1 ≤ mo ∧ mo ≤ 12 ∧ 1 ≤ dd ∧ dd ≤ daysInMonth year mo ∧
           hh ≤ 23 ∧ mi ≤ 59 ∧ ss ≤ 59 then
          some (Int.ofNat (daysFromCivil year mo dd * 86400 + hh * 3600 + mi * 60 + ss))
        else none
      | _, _, _, _, _, _ => none
    else none
  | _ => none

/-- Parser family indexed by the format string: the model instantiates
datetime.strptime only at the library's default format "%y%m%d_%H%M%S";
claims about other formats are stated parametrically in the parser. -/
def strptimeOf (fmt name : String) : Option Int :=
  if fmt = "%y%m%d_%H%M%S" then strptimeYmdHms name else none

/-- Timestamp of a well-formed default-format folder name. -/
def tsOf (s : String) : Int := (strptimeYmdHms s).getD 0

/-- Observable outcome of a successful TaskMgtAgent._clean_old_tasks run:
the folder names deleted by the count-limit prune (step 1, in order), the
names deleted by the expiration prune (step 2), the returned current task
name, and whether a new folder was created for it (os.makedirs at the
end of the method, absent when resuming). -/
structure CleanResult where
  deletedCount : List String
  deletedExpired : List String
  current : String
  created : Bool
deriving DecidableEq, Repr

/-- valid_folders before sorting: the (timestamp, name) pair of every
subdirectory whose name parses; the path component of the source's triple
is omitted since it is always task_folder_path/name. -/
def validFoldersOf (parse : String → Option Int) (dirs : List String) :
    List (Int × String) :=
  dirs.filterMap (fun d => (parse d).map (fun t => (t, d)))

/-- Stable insertion step for the descending sort. -/
def insertDesc (x : Int × String) :
    List (Int × String) → List (Int × String)
  | [] => [x]
  | y :: ys => if y.1 ≤ x.1 then x :: y :: ys else y :: insertDesc x ys

/-- valid_folders.sort(reverse=True, key=lambda x: x[0]): stable
descending insertion sort, which agrees with Python's stable sort with
reverse=True on the first component. -/
def sortDesc : List (Int × String) → List (Int × String)
  | [] => []
  | x :: xs => insertDesc x (sortDesc xs)

/-- The sorted valid_folders list (newest first). -/
def validSorted (parse : String → Option Int) (dirs : List String) :
    List (Int × String) :=
  sortDesc (validFoldersOf parse dirs)

/-- valid_folders[:task_num_limit] when the limit is set, the whole list
otherwise: the entries kept by the count-limit prune. -/
def keptOf (parse : String → Option Int) (lim : Option Nat)
    (dirs : List String) : List (Int × String) :=
  match lim with
  | none => validSorted parse dirs
  | some n => (validSorted parse dirs).take n

/-- valid_folders[task_num_limit:] when the limit is set (the count-prune
deletion candidates), empty otherwise. -/
def toDeleteOf (parse : String → Option Int) (lim : Option Nat)
    (dirs : List String) : List (Int × String) :=
  match lim with
  | none => []
  | some n => (validSorted parse dirs).drop n

/-- expired_folders of step 2: among the kept entries, those strictly
older than cutoff_date = now - timedelta(days=expiration_days) whose name
is not the resume target.  The source stores the day count as a string
and converts with int(); a falsy or unparseable value skips the step,
which the model folds into the none case. -/
def expiredOf (parse : String → Option Int) (lim : Option Nat)
    (expDays : Option Int) (now : Int) (res : Option String)
    (dirs : List String) : List (Int × String) :=
  match expDays with
  | none => []
  | some days =>
    (keptOf parse lim dirs).filter
      (fun f => decide (f.1 < now - days * 86400 ∧ some f.2 ≠ res))

/-- assert not resume_task or resume_task in folders: the membership test
is against all subdirectory names, parseable or not. -/
def resumeOk (dirs : List String) (res : Option String) : Bool :=
  match res with
  | none => true
  | some r => decide (r ∈ dirs)

/-- resume_task and any(resume_task == tup[1] for tup in folders_to_delete):
the guard of the resume-protection branch of the count-limit prune. -/
def resumeHit (res : Option String) (l : List (Int × String)) : Bool :=
  match res with
  | none => false
  | some r => decide (∃ f ∈ l, f.2 = r)

/-- The CleanResult of a run that reaches the end of _clean_old_tasks. -/
def cleanResultOf (parse : String → Option Int) (lim : Option Nat)
    (expDays : Option Int) (now : Int) (newName : String)
    (dirs : List String) (res : Option String) : CleanResult :=
  { deletedCount := (toDeleteOf parse lim dirs).map (fun f => f.2)
    deletedExpired := (expiredOf parse lim expDays now res dirs).map (fun f => f.2)
    current := match res with | some r => r | none => newName
    created := res.isNone }

/-- TaskMgtAgent._clean_old_tasks.  The assert on the resume target fires
first (AssertionError).  When the count limit is set and the resume target
is among folders_to_delete, the source executes
folders_to_delete.remove(resume_task), which raises ValueError: the list
holds (timestamp, name, path) tuples and resume_task is a string, so the
element is not found; the exception propagates out of the method.
Otherwise the run completes: count-prune deletions, expiration deletions,
and the selected or newly created current task name.  newName stands for
datetime.now().strftime(task_folder_format), the name a created folder
would get; now is the same clock reading as an encoded timestamp. -/
def clean_old_tasks (parse : String → Option Int) (lim : Option Nat)
    (expDays : Option Int) (now : Int) (newName : String)
    (dirs : List String) (res : Option String) : Except String CleanResult :=
  if resumeOk dirs res then
    if resumeHit res (toDeleteOf parse lim dirs) then
      Except.error "ValueError"
    else
      Except.ok (cleanResultOf parse lim expDays now newName dirs res)
  else Except.error "AssertionError"

/-- The task root directory listing after a successful clean: deleted
folders are removed (shutil.rmtree) and, when no resume was requested,
the newly created folder name appears (os.makedirs with exist_ok=True,
hence no duplicate when a folder of that name already exists). -/
def rootAfterClean (dirs : List String) (r : CleanResult) : List String :=
  let kept := dirs.filter
    (fun d => decide (d ∉ r.deletedCount ∧ d ∉ r.deletedExpired))
  if r.created ∧ r.current ∉ kept then kept ++ [r.current] else kept

/-- Parsed content of __task_config.json as written by setup: json.dump
always emits all three keys, a JSON null becoming none. -/
structure ConfigRecord where
  task_expiration_date : Option Int
  task_num_limit : Option Nat
  task_folder_format : String
deriving DecidableEq, Repr

/-- Content of the record file when it exists: either invalid JSON on
which json.load raises json.JSONDecodeError, or a parsed record. -/
inductive ConfigFile where
  | malformed : ConfigFile
  | record : ConfigRecord → ConfigFile
deriving DecidableEq, Repr

/-- A task root: its immediate subdirectory names (os.listdir filtered by
isdir, hence the record file itself never appears among them) and the
optional content of __task_config.json. -/
structure TaskRoot where
  dirs : List String
  config : Option ConfigFile
deriving DecidableEq, Repr

/-- Observable outcome of a successful TaskMgtAgent.setup run: the
effective policy fields stored on the agent, which warnings were printed
during reconciliation, the clean outcome, and the record written back to
__task_config.json. -/
structure SetupResult where
  task_folder_format : String
  task_expiration_date : Option Int
  task_num_limit : Option Nat
  warnFormat : Bool
  warnExpiration : Bool
  warnLimit : Bool
  clean : CleanResult
  newConfig : ConfigRecord
deriving DecidableEq, Repr

/-- Tail of setup after reconciliation: run _clean_old_tasks with the
effective policy, then write the effective policy back to the record. -/
def mkSetup (parseF : String → Option Int) (fmt : String)
    (expDays : Option Int) (lim : Option Nat) (res : Option String)
    (now : Int) (newName : String) (dirs : List String)
    (wF wE wL : Bool) : Except String SetupResult :=
  match clean_old_tasks parseF lim expDays now newName dirs res with
  | Except.error e => Except.error e
  | Except.ok c =>
    Except.ok
      { task_folder_format := fmt
        task_expiration_date := expDays
        task_num_limit := lim
        warnFormat := wF
        warnExpiration := wE
        warnLimit := wL
        clean := c
        newConfig :=
          { task_expiration_date := expDays
            task_num_limit := lim
            task_folder_format := fmt } }

/-- TaskMgtAgent.setup: load the persisted record if present (json.load
raising on invalid JSON, uncaught), reconcile - the persisted
task_folder_format overrides a conflicting request with a warning, while
the requested task_expiration_date and task_num_limit take effect with a
drift warning when they differ from the persisted values - then clean and
persist the effective policy. -/
def setup (parse : String → String → Option Int) (root : TaskRoot)
    (task_expiration_date : Option Int) (task_num_limit : Option Nat)
    (task_folder_format : String) (resume_task : Option String)
    (now : Int) (newName : String) : Except String SetupResult :=
  match root.config with
  | some ConfigFile.malformed => Except.error "JSONDecodeError"
  | some (ConfigFile.record old) =>
    mkSetup
      (parse (if old.task_folder_format ≠ task_folder_format
              then old.task_folder_format else task_folder_format))
      (if old.task_folder_format ≠ task_folder_format
       then old.task_folder_format else task_folder_format)
      task_expiration_date task_num_limit resume_task now newName root.dirs
      (decide (old.task_folder_format ≠ task_folder_format))
      (decide (old.task_expiration_date ≠ task_expiration_date))
      (decide (old.task_num_limit ≠ task_num_limit))
  | none =>
    mkSetup (parse task_folder_format) task_folder_format
      task_expiration_date task_num_limit resume_task now newName root.dirs
      false false false

/-- The task root after a successful setup: pruned directory listing and
the freshly written record. -/
def rootAfterSetup (root : TaskRoot) (r : SetupResult) : TaskRoot :=
  { dirs := rootAfterClean root.dirs r.clean
    config := some (ConfigFile.record r.newConfig) }

/-- os.path.join for the fixed relative layout paths. -/
def pathJoin (a b : String) : String := a ++ "/" ++ b

/-- Every ancestor directory of a path, innermost last, as created by
os.makedirs: one entry per slash-separated component chain. -/
def pathAncestors (p : String) : List String :=
  let comps := p.splitOn "/"
  (List.range comps.length).map
    (fun i => String.intercalate "/" (comps.take (i + 1)))

/-- os.makedirs(p, exist_ok=True) on the modelled directory set: p and
all its ancestors become present; nothing is removed and already-present
entries are unchanged. -/
def makedirs (fs : Finset String) (p : String) : Finset String :=
  fs ∪ (pathAncestors p).toFinset

/-- The fixed folder_structure dictionary of TaskFolderStruct. -/
def folder_structure : List (String × String) :=
  [("temp", "tmp"), ("cache", "tmp/cache"), ("var", "var"), ("result", "result")]

/-- TaskFolderStruct state: the private _paths mapping (attribute name to
absolute path, in insertion order) and the directory set after the
constructor's makedirs calls. -/
structure TaskFolderStruct where
  paths : List (String × String)
  fs : Finset String
deriving DecidableEq

/-- TaskFolderStruct.__init__: for each (attr, relpath) of
folder_structure in order, extend _paths and create the joined path with
os.makedirs(..., exist_ok=True); fs0 is the directory set before. -/
def TaskFolderStruct.build (task_folder_path : String) (fs0 : Finset String) :
    TaskFolderStruct :=
  folder_structure.foldl
    (fun s ar =>
      { paths := s.paths ++ [(ar.1, pathJoin task_folder_path ar.2)]
        fs := makedirs s.fs (pathJoin task_folder_path ar.2) })
    { paths := [], fs := fs0 }

/-- Read-only property temp. -/
def TaskFolderStruct.temp (t : TaskFolderStruct) : Option String :=
  t.paths.lookup "temp"

/-- Read-only property cache. -/
def TaskFolderStruct.cache (t : TaskFolderStruct) : Option String :=
  t.paths.lookup "cache"

/-- Read-only property var. -/
def TaskFolderStruct.var (t : TaskFolderStruct) : Option String :=
  t.paths.lookup "var"

/-- Read-only property result. -/
def TaskFolderStruct.result (t : TaskFolderStruct) : Option String :=
  t.paths.lookup "result"

/-- The set of directories the Task Folder Layout constructor creates:
the four fixed subdirectories tmp, tmp/cache, var and result of the task
directory, together with all their ancestors. -/
def layoutPaths (task_folder_path : String) : Finset String :=
  (pathAncestors (pathJoin task_folder_path "tmp")).toFinset ∪
  (pathAncestors (pathJoin task_folder_path "tmp/cache")).toFinset ∪
  (pathAncestors (pathJoin task_folder_path "var")).toFinset ∪
  (pathAncestors (pathJoin task_folder_path "result")).toFinset

/-- Concrete task root used to exercise reconciliation: an empty root
with a persisted record whose format differs from the upcoming request. -/
def c5Root : TaskRoot :=
  { dirs := []
    config := some (ConfigFile.record
      { task_expiration_date := none, task_num_limit := some 5,
        task_folder_format := "%y%m%d" }) }

/-- Concrete outcome of setup on c5Root when requesting format
"%Y-%m-%d", expiration 7 and limit 10. -/
def c5Result : SetupResult :=
  { task_folder_format := "%y%m%d"
    task_expiration_date := some 7
    task_num_limit := some 10
    warnFormat := true
    warnExpiration := true
    warnLimit := true
    clean := { deletedCount := [], deletedExpired := [], current := "x",
               created := true }
    newConfig := { task_expiration_date := some 7, task_num_limit := some 10,
                   task_folder_format := "%y%m%d" } }

/-! Helper lemmas about the sorting and enumeration pipeline. -/

theorem insertDesc_perm (x : Int × String) (l : List (Int × String)) :
    List.Perm (insertDesc x l) (x :: l) := by
  induction l with
  | nil => exact List.Perm.refl _
  | cons y ys ih =>
    simp only [insertDesc]
    split
    · exact List.Perm.refl _
    · exact (ih.cons y).trans (List.Perm.swap x y ys)

theorem sortDesc_perm (l : List (Int × String)) : List.Perm (sortDesc l) l := by
  induction l with
  | nil => exact List.Perm.refl _
  | cons x xs ih => exact (insertDesc_perm x (sortDesc xs)).trans (ih.cons x)

theorem mem_validFoldersOf {parse : String → Option Int} {dirs : List String}
    {t : Int} {d : String} :
    (t, d) ∈ validFoldersOf parse dirs ↔ d ∈ dirs ∧ parse d = some t := by
  simp only [validFoldersOf, List.mem_filterMap, Option.map_eq_some', Prod.mk.injEq]
  constructor
  · rintro ⟨a, ha, s, hs, rfl, rfl⟩
    exact ⟨ha, hs⟩
  · rintro ⟨hd, hp⟩
    exact ⟨d, hd, t, hp, rfl, rfl⟩

theorem mem_validSorted {parse : String → Option Int} {dirs : List String}
    {f : Int × String} :
    f ∈ validSorted parse dirs ↔ f.2 ∈ dirs ∧ parse f.2 = some f.1 := by
  obtain ⟨t, d⟩ := f
  rw [validSorted, (sortDesc_perm _).mem_iff]
  exact mem_validFoldersOf

theorem validFoldersOf_filter (parse : String → Option Int) (p : String → Bool)
    (dirs : List String) :
    validFoldersOf parse (dirs.filter p) =
      (validFoldersOf parse dirs).filter (fun f => p f.2) := by
  induction dirs with
  | nil => rfl
  | cons d ds ih =>
    by_cases hp : p d = true
    · cases hparse : parse d with
      | none =>
        simpa [validFoldersOf, List.filter_cons, List.filterMap_cons, hp, hparse]
          using ih
      | some t =>
        simpa [validFoldersOf, List.filter_cons, List.filterMap_cons, hp, hparse]
          using ih
    · cases hparse : parse d with
      | none =>
        simpa [validFoldersOf, List.filter_cons, List.filterMap_cons, hp, hparse]
          using ih
      | some t =>
        simpa [validFoldersOf, List.filter_cons, List.filterMap_cons, hp, hparse]
          using ih

theorem validFoldersOf_erase_of_none {parse : String → Option Int} {u : String}
    (hpu : parse u = none) (dirs : List String) :
    validFoldersOf parse (dirs.erase u) = validFoldersOf parse dirs := by
  induction dirs with
  | nil => rfl
  | cons d ds ih =>
    by_cases hd : d = u
    · subst hd
      rw [List.erase_cons_head]
      simp [validFoldersOf, List.filterMap_cons, hpu]
    · rw [List.erase_cons_tail (by simpa using hd)]
      simp only [validFoldersOf, List.filterMap_cons] at ih ⊢
      rw [ih]

theorem toDeleteOf_subset {parse : String → Option Int} {lim : Option Nat}
    {dirs : List String} {f : Int × String} (h : f ∈ toDeleteOf parse lim dirs) :
    f ∈ validSorted parse dirs := by
  cases lim with
  | none => cases h
  | some n => exact List.drop_subset _ _ h

theorem keptOf_subset {parse : String → Option Int} {lim : Option Nat}
    {dirs : List String} {f : Int × String} (h : f ∈ keptOf parse lim dirs) :
    f ∈ validSorted parse dirs := by
  cases lim with
  | none => exact h
  | some n => exact List.take_subset _ _ h

theorem expiredOf_subset {parse : String → Option Int} {lim : Option Nat}
    {expDays : Option Int} {now : Int} {res : Option String} {dirs : List String}
    {f : Int × String} (h : f ∈ expiredOf parse lim expDays now res dirs) :
    f ∈ keptOf parse lim dirs := by
  cases expDays with
  | none => cases h
  | some days => exact List.mem_of_mem_filter h

theorem length_validFolders_filter_le (parse : String → Option Int) (n : Nat)
    (dirs : List String) (p : String → Bool)
    (hp : ∀ f ∈ (validSorted parse dirs).drop n, p f.2 = false) :
    (validFoldersOf parse (dirs.filter p)).length ≤ n := by
  rw [validFoldersOf_filter]
  have h1 : ((validFoldersOf parse dirs).filter (fun f => p f.2)).length =
      ((validSorted parse dirs).filter (fun f => p f.2)).length :=
    ((sortDesc_perm (validFoldersOf parse dirs)).filter _).length_eq.symm
  rw [h1, ← List.take_append_drop n (validSorted parse dirs), List.filter_append,
    List.length_append]
  have h2 : (((validSorted parse dirs).drop n).filter (fun f => p f.2)) = [] :=
    List.filter_eq_nil_iff.mpr (fun f hf => by simp [hp f hf])
  rw [h2]
  simp only [List.length_nil, Nat.add_zero]
  exact le_trans (List.length_filter_le _ _)
    (by rw [List.length_take]; exact Nat.min_le_left _ _)

theorem expiredOf_filter_eq_nil (parse : String → Option Int) (lim : Option Nat)
    (expDays : Option Int) (now : Int) (res : Option String) (dirs : List String) :
    expiredOf parse lim expDays now res
      (dirs.filter (fun d => decide
        (d ∉ (toDeleteOf parse lim dirs).map (fun f => f.2) ∧
         d ∉ (expiredOf parse lim expDays now res dirs).map (fun f => f.2)))) = [] := by
  cases expDays with
  | none => rfl
  | some days =>
    show (keptOf parse lim
        (dirs.filter (fun d => decide
          (d ∉ (toDeleteOf parse lim dirs).map (fun f => f.2) ∧
           d ∉ (expiredOf parse lim (some days) now res dirs).map (fun f => f.2))))).filter
        (fun f => decide (f.1 < now - days * 86400 ∧ some f.2 ≠ res)) = []
    refine List.filter_eq_nil_iff.mpr ?_
    intro f hf
    have hfv := keptOf_subset hf
    have hfm : f ∈ (validFoldersOf parse dirs).filter
        (fun g => decide
          (g.2 ∉ (toDeleteOf parse lim dirs).map (fun f => f.2) ∧
           g.2 ∉ (expiredOf parse lim (some days) now res dirs).map (fun f => f.2))) := by
      have h := (sortDesc_perm _).mem_iff.mp hfv
      rw [validFoldersOf_filter] at h
      exact h
    have hfd : f ∈ validFoldersOf parse dirs := (List.mem_filter.mp hfm).1
    have hfs := (List.mem_filter.mp hfm).2
    simp only [decide_eq_true_eq] at hfs
    have hfv1 : f ∈ validSorted parse dirs := (sortDesc_perm _).mem_iff.mpr hfd
    have hkd : f ∈ keptOf parse lim dirs ∨ f ∈ toDeleteOf parse lim dirs := by
      cases lim with
      | none => exact Or.inl hfv1
      | some n =>
        rw [← List.take_append_drop n (validSorted parse dirs)] at hfv1
        exact List.mem_append.mp hfv1
    rcases hkd with hk | hd2
    · simp only [decide_eq_true_eq]
      intro hcon
      have hx : f ∈ expiredOf parse lim (some days) now res dirs := by
        simp only [expiredOf]
        exact List.mem_filter.mpr ⟨hk, by simp only [decide_eq_true_eq]; exact hcon⟩
      exact hfs.2 (List.mem_map_of_mem (fun g => g.2) hx)
    · simp only [decide_eq_true_eq]
      intro hcon
      exact hfs.1 (List.mem_map_of_mem (fun g => g.2) hd2)

/-! Theorems about the claims. -/

/-- Claim C1 (code_bug): the spec says that when the resume target falls
among the count-prune deletion candidates it is moved back into the kept
set, the lowest-ranked kept entry is dropped instead, and initialization
completes with 240101_000000 surviving and 240601_000000 deleted under
countLimit=1.  The code instead executes folders_to_delete.remove(resume_task),
removing a string from a list of (timestamp, name, path) tuples, which
raises an uncaught ValueError: at the spec's own scenario initialization
crashes before deleting anything. -/
theorem c1_resume_protection_crashes :
    clean_old_tasks strptimeYmdHms (some 1) none (tsOf "240601_120000")
      "240601_120000" ["240101_000000", "240601_000000"] (some "240101_000000") =
      Except.error "ValueError" := by
  rfl

/-- Claim C6 (code_bug): the retained-count bound holds on runs that
complete, but the clause that the resume directory is retained regardless
of rank is unreachable: whenever the resume target ranks below the count
limit, the same tuple-versus-string list.remove slip as in the C1 scenario
raises ValueError and initialization never completes.  Concretely, with
three parseable directories, countLimit=2 and the oldest as resume target,
the run crashes. -/
theorem c6_resume_below_rank_crashes :
    clean_old_tasks strptimeYmdHms (some 2) none (tsOf "240601_120000")
      "240601_120000" ["231001_000000", "240101_000000", "240601_000000"]
      (some "231001_000000") =
      Except.error "ValueError" := by
  rfl

/-- Claim C2, counterexample: a task root whose record file holds invalid
JSON makes initialization fail with the propagated json.JSONDecodeError
instead of proceeding with the caller-supplied policy. -/
theorem c2_malformed_record_fails :
    setup strptimeOf { dirs := ["240101_000000"], config := some ConfigFile.malformed }
      none (some 10) "%y%m%d_%H%M%S" none 0 "240601_120000" =
      Except.error "JSONDecodeError" := by
  rfl

/-- Claim C2 (corrected): for every task root whose persisted policy
record exists but contains invalid JSON, initialization fails with the
JSON decode error - json.load is not guarded - so no pruning happens and
the record is not overwritten; only a missing record file is treated as
no prior policy. -/
theorem c2_amended_malformed_record_aborts (parse : String → String → Option Int)
    (root : TaskRoot) (expDays : Option Int) (lim : Option Nat) (fmt : String)
    (res : Option String) (now : Int) (newName : String)
    (h : root.config = some ConfigFile.malformed) :
    setup parse root expDays lim fmt res now newName =
      Except.error "JSONDecodeError" := by
  unfold setup
  rw [h]

/-- Claim C2 witness: the amended statement at a concrete root. -/
theorem c2_amended_malformed_record_aborts_witness :
    setup strptimeOf { dirs := [], config := some ConfigFile.malformed }
      (some 3) none "%y%m%d" none 5 "x" = Except.error "JSONDecodeError" :=
  c2_amended_malformed_record_aborts strptimeOf
    { dirs := [], config := some ConfigFile.malformed }
    (some 3) none "%y%m%d" none 5 "x" rfl

/-- Claim C3, counterexample: resumeTask="foo" names an existing
subdirectory whose name does not parse under the effective nameFormat,
yet initialization succeeds and resumes it, contradicting the claim that
it must fail with a configuration error. -/
theorem c3_unparseable_resume_succeeds :
    setup strptimeOf { dirs := ["foo"], config := none } none (some 10)
      "%y%m%d_%H%M%S" (some "foo") (tsOf "240601_120000") "240601_120000" =
      Except.ok
        { task_folder_format := "%y%m%d_%H%M%S"
          task_expiration_date := none
          task_num_limit := some 10
          warnFormat := false
          warnExpiration := false
          warnLimit := false
          clean := { deletedCount := [], deletedExpired := [],
                     current := "foo", created := false }
          newConfig := { task_expiration_date := none, task_num_limit := some 10,
                         task_folder_format := "%y%m%d_%H%M%S" } } := by
  rfl

/-- Claim C3 (corrected): the resume-target check is a membership test
against all subdirectory names of the task root, parseable or not.  If
resumeTask is absent from that list, initialization fails with the
assertion error before any deletion is performed; but a resumeTask naming
an existing unparseable subdirectory passes the check and initialization
proceeds, resuming that directory without creating a new one. -/
theorem c3_amended_resume_checked_against_all_names (parse : String → Option Int)
    (lim : Option Nat) (expDays : Option Int) (now : Int) (newName : String)
    (dirs : List String) (r : String) :
    (r ∉ dirs →
      clean_old_tasks parse lim expDays now newName dirs (some r) =
        Except.error "AssertionError") ∧
    (r ∈ dirs → parse r = none →
      clean_old_tasks parse lim expDays now newName dirs (some r) =
        Except.ok (cleanResultOf parse lim expDays now newName dirs (some r)) ∧
      (cleanResultOf parse lim expDays now newName dirs (some r)).current = r ∧
      (cleanResultOf parse lim expDays now newName dirs (some r)).created = false) := by
  constructor
  · intro hr
    unfold clean_old_tasks
    have h1 : resumeOk dirs (some r) = false := by simp [resumeOk, hr]
    rw [h1]
    rfl
  · intro hr hpr
    have h1 : resumeOk dirs (some r) = true := by simp [resumeOk, hr]
    have h2 : resumeHit (some r) (toDeleteOf parse lim dirs) = false := by
      simp only [resumeHit, decide_eq_false_iff_not]
      rintro ⟨f, hf, hf2⟩
      have hm := (mem_validSorted.mp (toDeleteOf_subset hf)).2
      rw [hf2, hpr] at hm
      cases hm
    refine ⟨?_, rfl, rfl⟩
    unfold clean_old_tasks
    rw [h1, h2]
    rfl

/-- Claim C3 witness: both halves of the amended statement at concrete
inputs - a missing resume target aborts, an existing unparseable one is
resumed. -/
theorem c3_amended_witness :
    clean_old_tasks strptimeYmdHms (some 5) none 0 "nn" ["foo"] (some "zzz") =
      Except.error "AssertionError" ∧
    clean_old_tasks strptimeYmdHms (some 5) none 0 "nn" ["foo"] (some "foo") =
      Except.ok (cleanResultOf strptimeYmdHms (some 5) none 0 "nn" ["foo"] (some "foo")) ∧
    (cleanResultOf strptimeYmdHms (some 5) none 0 "nn" ["foo"] (some "foo")).current = "foo" ∧
    (cleanResultOf strptimeYmdHms (some 5) none 0 "nn" ["foo"] (some "foo")).created = false :=
  ⟨(c3_amended_resume_checked_against_all_names strptimeYmdHms (some 5) none 0
      "nn" ["foo"] "zzz").1 (by decide),
   (c3_amended_resume_checked_against_all_names strptimeYmdHms (some 5) none 0
      "nn" ["foo"] "foo").2 (by decide) rfl⟩

/-- Claim C4, counterexample: with countLimit=1, no resume and one
pre-existing parseable directory, the first run deletes nothing and
creates 240601_120000; re-running immediately with identical inputs
against the pruned root deletes 240101_000000, so the second run is not
deletion-free as the claim states. -/
theorem c4_second_run_deletes :
    clean_old_tasks strptimeYmdHms (some 1) none (tsOf "240601_120000")
      "240601_120000" ["240101_000000"] none =
      Except.ok { deletedCount := [], deletedExpired := [],
                  current := "240601_120000", created := true } ∧
    rootAfterClean ["240101_000000"]
      { deletedCount := [], deletedExpired := [],
        current := "240601_120000", created := true } =
      ["240101_000000", "240601_120000"] ∧
    clean_old_tasks strptimeYmdHms (some 1) none (tsOf "240601_120000")
      "240601_120000" ["240101_000000", "240601_120000"] none =
      Except.ok { deletedCount := ["240101_000000"], deletedExpired := [],
                  current := "240601_120000", created := true } := by
  exact ⟨rfl, by decide, rfl⟩

/-- Claim C4 (corrected): the idempotence half that survives the
counterexample - with resumeTask set, re-running initialization
immediately (same clock, hence same cutoff and same would-be new name)
on the pruned root deletes nothing and selects the same current
directory again.  Without resumeTask the claim fails: the directory
created by the first run counts toward countLimit in the second run,
which can therefore delete the lowest-ranked previously retained
directory, as the counterexample shows. -/
theorem c4_resume_rerun_idempotent (parse : String → Option Int) (lim : Option Nat)
    (expDays : Option Int) (now : Int) (newName : String) (dirs : List String)
    (res : String) (r1 : CleanResult)
    (h1 : clean_old_tasks parse lim expDays now newName dirs (some res) = Except.ok r1) :
    clean_old_tasks parse lim expDays now newName (rootAfterClean dirs r1) (some res) =
      Except.ok { deletedCount := [], deletedExpired := [],
                  current := res, created := false } := by
  unfold clean_old_tasks at h1
  split at h1
  case isFalse => exact Except.noConfusion h1
  case isTrue hOk =>
    split at h1
    case isTrue => exact Except.noConfusion h1
    case isFalse hHit =>
      injection h1 with h1
      subst h1
      -- Names of count-prune deletion candidates never include the resume
      -- target (otherwise the run would have raised ValueError).
      have hres_notC : ∀ f ∈ toDeleteOf parse lim dirs, f.2 ≠ res := by
        intro f hf heq
        exact hHit (by
          simp only [resumeHit, decide_eq_true_eq]
          exact ⟨f, hf, heq⟩)
      have hresdirs : res ∈ dirs := by
        have h := hOk
        simp only [resumeOk, decide_eq_true_eq] at h
        exact h
      have hnotC : res ∉ (toDeleteOf parse lim dirs).map (fun f => f.2) := by
        intro hmem
        rcases List.mem_map.mp hmem with ⟨f, hf, hf2⟩
        exact hres_notC f hf hf2
      have hnotE : res ∉ (expiredOf parse lim expDays now (some res) dirs).map
          (fun f => f.2) := by
        intro hmem
        rcases List.mem_map.mp hmem with ⟨f, hf, hf2⟩
        cases expDays with
        | none => cases hf
        | some days =>
          have h := (List.mem_filter.mp hf).2
          simp only [decide_eq_true_eq] at h
          exact h.2 (by rw [hf2])
      -- The pruned root is the filtered listing (no new folder: resuming).
      have hD2 : rootAfterClean dirs
          (cleanResultOf parse lim expDays now newName dirs (some res)) =
          dirs.filter (fun d => decide
            (d ∉ (toDeleteOf parse lim dirs).map (fun f => f.2) ∧
             d ∉ (expiredOf parse lim expDays now (some res) dirs).map (fun f => f.2))) := by
        simp only [rootAfterClean]
        rw [if_neg]
        · rfl
        · intro hcond
          exact Bool.false_ne_true hcond.1
      rw [hD2]
      -- The resume target survives into the pruned root.
      have hOk2 : resumeOk
          (dirs.filter (fun d => decide
            (d ∉ (toDeleteOf parse lim dirs).map (fun f => f.2) ∧
             d ∉ (expiredOf parse lim expDays now (some res) dirs).map (fun f => f.2))))
          (some res) = true := by
        simp only [resumeOk, decide_eq_true_eq]
        refine List.mem_filter.mpr ⟨hresdirs, ?_⟩
        simp only [decide_eq_true_eq]
        exact ⟨hnotC, hnotE⟩
      -- All remaining parseable entries fit under the count limit.
      have hToDel2 : toDeleteOf parse lim
          (dirs.filter (fun d => decide
            (d ∉ (toDeleteOf parse lim dirs).map (fun f => f.2) ∧
             d ∉ (expiredOf parse lim expDays now (some res) dirs).map (fun f => f.2)))) = [] := by
        cases lim with
        | none => rfl
        | some n =>
          show (validSorted parse _).drop n = []
          rw [List.drop_eq_nil_iff]
          have hlen := length_validFolders_filter_le parse n dirs
            (fun d => decide
              (d ∉ (toDeleteOf parse (some n) dirs).map (fun f => f.2) ∧
               d ∉ (expiredOf parse (some n) expDays now (some res) dirs).map (fun f => f.2)))
            (fun f hf => by
              apply decide_eq_false
              intro hcon
              exact hcon.1 (List.mem_map_of_mem (fun g => g.2) hf))
          calc (validSorted parse _).length
              = (validFoldersOf parse _).length := (sortDesc_perm _).length_eq
            _ ≤ n := hlen
      have hHit2 : resumeHit (some res) (toDeleteOf parse lim
          (dirs.filter (fun d => decide
            (d ∉ (toDeleteOf parse lim dirs).map (fun f => f.2) ∧
             d ∉ (expiredOf parse lim expDays now (some res) dirs).map (fun f => f.2))))) =
          false := by
        rw [hToDel2]
        simp [resumeHit]
      -- No survivor of the first run is still expired.
      have hExp2 := expiredOf_filter_eq_nil parse lim expDays now (some res) dirs
      unfold clean_old_tasks
      split
      case isFalse h => exact absurd hOk2 h
      case isTrue =>
        split
        case isTrue h =>
          rw [hHit2] at h
          exact absurd h (by simp)
        case isFalse =>
          simp only [cleanResultOf, hToDel2, hExp2, List.map_nil, Option.isNone_some]

/-- Claim C4 witness: resuming 240101_000000 under countLimit=2, the
second run on the pruned root deletes nothing and selects it again. -/
theorem c4_resume_rerun_idempotent_witness :
    clean_old_tasks strptimeYmdHms (some 2) none (tsOf "240601_120000") "240601_120000"
      (rootAfterClean ["240101_000000", "240601_000000"]
        { deletedCount := [], deletedExpired := [],
          current := "240101_000000", created := false })
      (some "240101_000000") =
      Except.ok { deletedCount := [], deletedExpired := [],
                  current := "240101_000000", created := false } :=
  c4_resume_rerun_idempotent strptimeYmdHms (some 2) none (tsOf "240601_120000")
    "240601_120000" ["240101_000000", "240601_000000"] "240101_000000"
    { deletedCount := [], deletedExpired := [],
      current := "240101_000000", created := false } rfl

/-- Claim C10 (confirmed): with task_num_limit = 0 and no resume target,
the count-limit prune deletes every pre-existing parseable directory -
the code treats countLimit = 0 as retain none, not unbounded - and the
run completes by creating the new current directory. -/
theorem c10_zero_limit_retains_none (parse : String → Option Int)
    (expDays : Option Int) (now : Int) (newName : String) (dirs : List String) :
    clean_old_tasks parse (some 0) expDays now newName dirs none =
      Except.ok
        { deletedCount := (validSorted parse dirs).map (fun f => f.2)
          deletedExpired := []
          current := newName
          created := true } ∧
    ∀ d ∈ dirs, ∀ t : Int, parse d = some t →
      d ∈ (validSorted parse dirs).map (fun f => f.2) := by
  constructor
  · unfold clean_old_tasks
    have h1 : resumeOk dirs none = true := rfl
    have h2 : resumeHit none (toDeleteOf parse (some 0) dirs) = false := rfl
    rw [h1, h2]
    simp only [cleanResultOf, toDeleteOf, keptOf, expiredOf, List.drop_zero,
      List.take_zero, if_true]
    cases expDays <;> simp
  · intro d hd t hp
    exact List.mem_map_of_mem _ ((@mem_validSorted parse dirs (t, d)).mpr ⟨hd, hp⟩)

/-- Claim C5 (confirmed): when a persisted policy record exists, the
effective nameFormat is the persisted one (so a conflicting request is
overridden) and the format warning fires exactly when the request
conflicts; the caller-requested expirationDays and countLimit become the
effective values and are persisted back, with drift warnings exactly when
they differ from the persisted values. -/
theorem c5_reconciliation (parse : String → String → Option Int) (root : TaskRoot)
    (expDays : Option Int) (lim : Option Nat) (fmt : String) (res : Option String)
    (now : Int) (newName : String) (old : ConfigRecord) (r : SetupResult)
    (hcfg : root.config = some (ConfigFile.record old))
    (hok : setup parse root expDays lim fmt res now newName = Except.ok r) :
    r.task_folder_format = old.task_folder_format ∧
    r.task_expiration_date = expDays ∧
    r.task_num_limit = lim ∧
    r.warnFormat = decide (old.task_folder_format ≠ fmt) ∧
    r.warnExpiration = decide (old.task_expiration_date ≠ expDays) ∧
    r.warnLimit = decide (old.task_num_limit ≠ lim) ∧
    r.newConfig = { task_expiration_date := expDays, task_num_limit := lim,
                    task_folder_format := old.task_folder_format } := by
  unfold setup at hok
  split at hok
  next heq =>
    rw [hcfg] at heq
    simp at heq
  next old2 heq =>
    rw [hcfg] at heq
    injection heq with heq
    injection heq with heq
    subst heq
    have hfe : (if old.task_folder_format ≠ fmt
                then old.task_folder_format else fmt) = old.task_folder_format := by
      by_cases h : old.task_folder_format = fmt <;> simp [h]
    rw [hfe] at hok
    unfold mkSetup at hok
    split at hok
    · exact Except.noConfusion hok
    · injection hok with hok
      subst hok
      exact ⟨rfl, rfl, rfl, rfl, rfl, rfl, rfl⟩
  next heq =>
    rw [hcfg] at heq
    simp at heq

/-- Claim C5 witness: a persisted format conflicting with the request is
kept, the requested numeric limits take effect, and all three drift
warnings fire. -/
theorem c5_reconciliation_witness :
    c5Result.task_folder_format = "%y%m%d" ∧
    c5Result.task_expiration_date = some 7 ∧
    c5Result.task_num_limit = some 10 ∧
    c5Result.warnFormat = decide ("%y%m%d" ≠ "%Y-%m-%d") ∧
    c5Result.warnExpiration = decide ((none : Option Int) ≠ some 7) ∧
    c5Result.warnLimit = decide ((some 5 : Option Nat) ≠ some 10) ∧
    c5Result.newConfig = { task_expiration_date := some 7, task_num_limit := some 10,
                           task_folder_format := "%y%m%d" } :=
  c5_reconciliation strptimeOf c5Root (some 7) (some 10) "%Y-%m-%d" none 0 "x"
    { task_expiration_date := none, task_num_limit := some 5,
      task_folder_format := "%y%m%d" }
    c5Result rfl rfl

/-- Claim C7 (confirmed): with expirationDays set, the expiration prune
deletes exactly the count-prune survivors whose timestamp is strictly
older than now - expirationDays (in seconds, days * 86400) and whose name
is not the resume target; consequently every parseable pre-existing entry
older than the cutoff is gone from the root after a completed run unless
it is the resume directory (or happens to be recreated as the fresh
current directory name). -/
theorem c7_expiration_prune (parse : String → Option Int) (lim : Option Nat)
    (days : Int) (now : Int) (newName : String) (dirs : List String)
    (res : Option String) (r : CleanResult)
    (hok : clean_old_tasks parse lim (some days) now newName dirs res = Except.ok r) :
    r.deletedExpired =
      ((keptOf parse lim dirs).filter
        (fun f => decide (f.1 < now - days * 86400 ∧ some f.2 ≠ res))).map
        (fun f => f.2) ∧
    ∀ d ∈ dirs, ∀ t : Int, parse d = some t → t < now - days * 86400 →
      some d ≠ res → d ≠ newName → d ∉ rootAfterClean dirs r := by
  unfold clean_old_tasks at hok
  split at hok
  case isFalse => exact Except.noConfusion hok
  case isTrue hTrue =>
    split at hok
    case isTrue => exact Except.noConfusion hok
    case isFalse hHit =>
      injection hok with hok
      subst hok
      refine ⟨rfl, ?_⟩
      intro d hd t hp hlt hres hnn hmem
      have hval : (t, d) ∈ validSorted parse dirs :=
        (@mem_validSorted parse dirs (t, d)).mpr ⟨hd, hp⟩
      have hkd : (t, d) ∈ keptOf parse lim dirs ∨ (t, d) ∈ toDeleteOf parse lim dirs := by
        cases lim with
        | none => exact Or.inl hval
        | some n =>
          rw [← List.take_append_drop n (validSorted parse dirs)] at hval
          exact List.mem_append.mp hval
      -- Names in the two deletion lists.
      have hC : d ∈ (cleanResultOf parse lim (some days) now newName dirs res).deletedCount ∨
          d ∈ (cleanResultOf parse lim (some days) now newName dirs res).deletedExpired := by
        rcases hkd with hk | hdel
        · refine Or.inr ?_
          have hx : (t, d) ∈ expiredOf parse lim (some days) now res dirs := by
            simp only [expiredOf]
            refine List.mem_filter.mpr ⟨hk, ?_⟩
            simp only [decide_eq_true_eq]
            exact ⟨hlt, hres⟩
          show d ∈ (expiredOf parse lim (some days) now res dirs).map (fun f => f.2)
          exact List.mem_map_of_mem (fun f => f.2) hx
        · show d ∈ (toDeleteOf parse lim dirs).map (fun f => f.2) ∨ _
          exact Or.inl (List.mem_map_of_mem (fun f => f.2) hdel)
      -- But membership in the pruned root excludes both lists.
      simp only [rootAfterClean] at hmem
      split at hmem
      case isTrue h =>
        rcases List.mem_append.mp hmem with hmem | hmem
        · have := (List.mem_filter.mp hmem).2
          simp only [decide_eq_true_eq] at this
          rcases hC with hc | hc
          · exact this.1 hc
          · exact this.2 hc
        · have hcur := List.mem_singleton.mp hmem
          cases res with
          | none => exact hnn hcur
          | some rr => exact hres (by rw [hcur]; rfl)
      case isFalse h =>
        have := (List.mem_filter.mp hmem).2
        simp only [decide_eq_true_eq] at this
        rcases hC with hc | hc
        · exact this.1 hc
        · exact this.2 hc

/-- Claim C7 witness: a directory four years older than the cutoff is
deleted by the expiration prune and absent from the pruned root. -/
theorem c7_expiration_prune_witness :
    ({ deletedCount := [], deletedExpired := ["200101_000000"],
       current := "240601_120000", created := true } : CleanResult).deletedExpired =
      ((keptOf strptimeYmdHms (some 10) ["200101_000000"]).filter
        (fun f => decide (f.1 < tsOf "240601_120000" - 30 * 86400 ∧
          some f.2 ≠ (none : Option String)))).map (fun f => f.2) ∧
    "200101_000000" ∉ rootAfterClean ["200101_000000"]
      { deletedCount := [], deletedExpired := ["200101_000000"],
        current := "240601_120000", created := true } :=
  ⟨(c7_expiration_prune strptimeYmdHms (some 10) 30 (tsOf "240601_120000")
      "240601_120000" ["200101_000000"] none
      { deletedCount := [], deletedExpired := ["200101_000000"],
        current := "240601_120000", created := true } rfl).1,
   (c7_expiration_prune strptimeYmdHms (some 10) 30 (tsOf "240601_120000")
      "240601_120000" ["200101_000000"] none
      { deletedCount := [], deletedExpired := ["200101_000000"],
        current := "240601_120000", created := true } rfl).2
     "200101_000000" (by decide) (tsOf "200101_000000") rfl (by decide)
     (by decide) (by decide)⟩

/-- Claim C8 (confirmed): a subdirectory whose name does not parse under
the effective format is never deleted by a completed run - it is still
present in the pruned root - and it is excluded from retention accounting
entirely: removing it from the enumeration changes nothing in the run's
outcome, so it is never counted toward countLimit. -/
theorem c8_unparseable_frame (parse : String → Option Int) (lim : Option Nat)
    (expDays : Option Int) (now : Int) (newName : String) (dirs : List String)
    (res : Option String) (u : String) (r : CleanResult)
    (hu : u ∈ dirs) (hpu : parse u = none)
    (hok : clean_old_tasks parse lim expDays now newName dirs res = Except.ok r) :
    u ∈ rootAfterClean dirs r ∧
    (res ≠ some u →
      clean_old_tasks parse lim expDays now newName (dirs.erase u) res =
        clean_old_tasks parse lim expDays now newName dirs res) := by
  constructor
  · unfold clean_old_tasks at hok
    split at hok
    case isFalse => exact Except.noConfusion hok
    case isTrue hTrue =>
      split at hok
      case isTrue => exact Except.noConfusion hok
      case isFalse hHit =>
        injection hok with hok
        subst hok
        have hC : u ∉ (toDeleteOf parse lim dirs).map (fun f => f.2) := by
          intro hmem
          rcases List.mem_map.mp hmem with ⟨f, hf, hf2⟩
          have hm := (mem_validSorted.mp (toDeleteOf_subset hf)).2
          rw [hf2, hpu] at hm
          cases hm
        have hE : u ∉ (expiredOf parse lim expDays now res dirs).map (fun f => f.2) := by
          intro hmem
          rcases List.mem_map.mp hmem with ⟨f, hf, hf2⟩
          have hm := (mem_validSorted.mp (keptOf_subset (expiredOf_subset hf))).2
          rw [hf2, hpu] at hm
          cases hm
        have hkeep : u ∈ dirs.filter (fun d => decide
            (d ∉ (cleanResultOf parse lim expDays now newName dirs res).deletedCount ∧
             d ∉ (cleanResultOf parse lim expDays now newName dirs res).deletedExpired)) := by
          refine List.mem_filter.mpr ⟨hu, ?_⟩
          simp only [decide_eq_true_eq]
          exact ⟨hC, hE⟩
        simp only [rootAfterClean]
        split
        case isTrue => exact List.mem_append_left _ hkeep
        case isFalse => exact hkeep
  · intro hne
    have hro : resumeOk (dirs.erase u) res = resumeOk dirs res := by
      cases res with
      | none => rfl
      | some rr =>
        have hrr : rr ≠ u := fun h => hne (by rw [h])
        simp only [resumeOk]
        exact decide_eq_decide.mpr (List.mem_erase_of_ne hrr)
    unfold clean_old_tasks
    simp only [resumeHit, cleanResultOf, toDeleteOf, keptOf, expiredOf, validSorted,
      validFoldersOf_erase_of_none hpu, hro]

/-- Claim C8 witness: the unparseable directory foo survives the run and
erasing it from the enumeration leaves the run's outcome unchanged. -/
theorem c8_unparseable_frame_witness :
    "foo" ∈ rootAfterClean ["foo", "240101_000000"]
      { deletedCount := [], deletedExpired := [],
        current := "240601_120000", created := true } ∧
    clean_old_tasks strptimeYmdHms (some 10) none 0 "240601_120000"
      (["foo", "240101_000000"].erase "foo") none =
      clean_old_tasks strptimeYmdHms (some 10) none 0 "240601_120000"
        ["foo", "240101_000000"] none :=
  ⟨(c8_unparseable_frame strptimeYmdHms (some 10) none 0 "240601_120000"
      ["foo", "240101_000000"] none "foo"
      { deletedCount := [], deletedExpired := [],
        current := "240601_120000", created := true }
      (by decide) rfl rfl).1,
   (c8_unparseable_frame strptimeYmdHms (some 10) none 0 "240601_120000"
      ["foo", "240101_000000"] none "foo"
      { deletedCount := [], deletedExpired := [],
        current := "240601_120000", created := true }
      (by decide) rfl rfl).2 (by decide)⟩

/-- Claim C9 (confirmed): building the Task Folder Layout adds exactly
the four fixed subdirectories tmp, tmp/cache, var and result (with their
parents) to the directory set, never deletes anything (the prior set is
contained in the result), is a no-op on a set that already contains them
all, and the four accessors expose exactly those four joined paths. -/
theorem c9_folder_layout (task_folder_path : String) (fs0 : Finset String) :
    (TaskFolderStruct.build task_folder_path fs0).fs =
      fs0 ∪ layoutPaths task_folder_path ∧
    fs0 ⊆ (TaskFolderStruct.build task_folder_path fs0).fs ∧
    (TaskFolderStruct.build task_folder_path
        (fs0 ∪ layoutPaths task_folder_path)).fs =
      fs0 ∪ layoutPaths task_folder_path ∧
    (TaskFolderStruct.build task_folder_path fs0).temp =
      some (pathJoin task_folder_path "tmp") ∧
    (TaskFolderStruct.build task_folder_path fs0).cache =
      some (pathJoin task_folder_path "tmp/cache") ∧
    (TaskFolderStruct.build task_folder_path fs0).var =
      some (pathJoin task_folder_path "var") ∧
    (TaskFolderStruct.build task_folder_path fs0).result =
      some (pathJoin task_folder_path "result") := by
  have hfs : ∀ g : Finset String, (TaskFolderStruct.build task_folder_path g).fs =
      g ∪ layoutPaths task_folder_path := by
    intro g
    simp only [TaskFolderStruct.build, folder_structure, List.foldl, makedirs,
      layoutPaths, Finset.union_assoc]
  refine ⟨hfs fs0, ?_, ?_, rfl, rfl, rfl, rfl⟩
  · rw [hfs fs0]
    exact Finset.subset_union_left
  · rw [hfs (fs0 ∪ layoutPaths task_folder_path), Finset.union_assoc,
      Finset.union_self]

/-- Claim C10 witness: with limit 0 the parseable directory is deleted
while the unparseable one is not counted. -/
theorem c10_zero_limit_retains_none_witness :
    clean_old_tasks strptimeYmdHms (some 0) none 0 "nn" ["240101_000000", "foo"] none =
      Except.ok
        { deletedCount := (validSorted strptimeYmdHms ["240101_000000", "foo"]).map (fun f => f.2)
          deletedExpired := []
          current := "nn"
          created := true } ∧
    "240101_000000" ∈
      (validSorted strptimeYmdHms ["240101_000000", "foo"]).map (fun f => f.2) :=
  ⟨(c10_zero_limit_retains_none strptimeYmdHms none 0 "nn" ["240101_000000", "foo"]).1,
   (c10_zero_limit_retains_none strptimeYmdHms none 0 "nn" ["240101_000000", "foo"]).2
     "240101_000000" (by simp) (tsOf "240101_000000") rfl⟩

end Tracklog
